import Mathlib

/-!
Verification development for the kt-cli encrypted-transfer core
(`DownloadFile` in the pkg package and `ApiRequest` in pkg/api.go).

The Go code is shallowly embedded: JSON values become the inductive `JVal`;
the dynamically-keyed maps `map[string]interface{}` become association lists
`List (String × JVal)`; Go's checked type assertions (`v, ok := x.(T)`)
become `Option`-returning coercions, and its unchecked assertions
(`x.(T)` which panic on mismatch) are modelled by the dedicated outcome
`Outcome.panics`.  Network and third-party crypto effects are abstracted
into an `Env` record of oracles; every observable action of a run
(outbound API body, HTTP fetch, bytes written to the destination writer,
clearing of private key material) is recorded in an event trace.
-/

set_option autoImplicit false

/-- A JSON-ish dynamic value, standing for Go's `interface{}` as it appears
in decoded JSON-RPC results. -/
inductive JVal where
  | str (s : String)
  | num (n : Int)
  | bool (b : Bool)
  | list (xs : List JVal)
  | obj (fields : List (String × JVal))
  deriving Repr

/-- Checked assertion `v.(string)`. -/
def asStr : JVal → Option String
  | .str s => some s
  | _ => none

/-- Checked assertion `v.(bool)`. -/
def asBool : JVal → Option Bool
  | .bool b => some b
  | _ => none

/-- Checked assertion `v.(float64)`; numbers are embedded as `Int` since the
code only compares against zero. -/
def asNum : JVal → Option Int
  | .num n => some n
  | _ => none

/-- Checked assertion `v.([]interface\x7b\x7d)`. -/
def asList : JVal → Option (List JVal)
  | .list xs => some xs
  | _ => none

/-- Checked assertion `v.(map[string]interface\x7b\x7d)`. -/
def asObj : JVal → Option (List (String × JVal))
  | .obj fields => some fields
  | _ => none

/-- Go map lookup `m[k]` returning the value when the key is present. -/
def lookupKey : List (String × JVal) → String → Option JVal
  | [], _ => none
  | p :: rest, k => if p.1 == k then some p.2 else lookupKey rest k

/-- Go map membership test `_, ok := m[k]`. -/
def hasKey (m : List (String × JVal)) (k : String) : Bool :=
  (lookupKey m k).isSome

/-- The `error` member of pkg.ApiResponse (a zero `code` means no error). -/
structure ApiError where
  code : Nat
  message : String
  deriving Repr

/-- pkg.ApiResponse: decoded JSON-RPC response with its dynamic result map. -/
structure ApiResponse where
  error : ApiError
  result : List (String × JVal)
  deriving Repr

/-- The structural content of an outbound JSON-RPC body built by
`ApiRequest`: `\x7b"method": method, "params": params\x7d`. -/
structure RequestBody where
  method : String
  params : List (String × JVal)
  deriving Repr

/-- The params map that `ApiRequest` sends (and, Go maps being references,
that the caller's map holds after the call when it was non-nil): a nil map
is replaced by an empty one, and the token argument is inserted under
`"token"` unless that key is already present (pkg/api.go lines 46-58). -/
def apiRequestParams (token : String) (params0 : Option (List (String × JVal))) :
    List (String × JVal) :=
  let params := params0.getD []
  if hasKey params "token" then params else params ++ [("token", JVal.str token)]

/-- The outbound body assembled by `ApiRequest` (pkg/api.go lines 55-58). -/
def apiRequestBody (token : String) (method : String)
    (params0 : Option (List (String × JVal))) : RequestBody :=
  ⟨method, apiRequestParams token params0⟩

/-- The body of the `files.getById` metadata call issued by `DownloadFile`
(README line 152). -/
def getByIdBody (token fileId : String) : RequestBody :=
  apiRequestBody token "files.getById" (some [("file", JVal.str fileId)])

/-- The body of the `files.download` signed-URL call issued by
`DownloadFile` (README line 208). -/
def downloadBody (token fileId : String) : RequestBody :=
  apiRequestBody token "files.download" (some [("file", JVal.str fileId)])

/-- pkg.CryptoInfo: key material usable for one disk. -/
structure CryptoInfo where
  EncryptedCryptoKey : String
  PublicKey : String
  Password : String
  RawCryptoKey : String
  deriving Repr

/-- Modelled from the spec: `CryptoInfo.IsCryptoReady` is not under src/;
§4.2 of the spec states it is true iff `RawCryptoKey` is populated. -/
def CryptoInfo.IsCryptoReady (c : CryptoInfo) : Bool :=
  c.RawCryptoKey != ""

/-- One observable action of a `DownloadFile` run. -/
inductive Event where
  /-- An outbound JSON-RPC call with its body. -/
  | apiCall (body : RequestBody)
  /-- The plain HTTP fetch of the signed content URL. -/
  | httpGet (url : String)
  /-- Bytes copied into the caller's destination writer. -/
  | write (bytes : List Nat)
  /-- `privateKeyRing.ClearPrivateParams()` scrubbing secret material. -/
  | clearPrivateParams
  deriving Repr

/-- How a `DownloadFile` call ends: a normal return with the file name and
byte count, an error return, or a runtime panic (Go's unchecked type
assertions crash rather than return). -/
inductive Outcome where
  | ok (name : String) (numBytes : Nat)
  | err (msg : String)
  | panics (msg : String)
  deriving Repr

/-- The environment of one `DownloadFile` run: responses of the JSON-RPC
gateway, the HTTP content server, and the behaviour of the third-party
OpenPGP primitives.  Key rings are abstract handles (`Nat`). -/
structure Env where
  /-- Result of the `files.getById` call (`.error` is a transport failure). -/
  getByIdResp : Except String ApiResponse
  /-- JSON-RPC method name used by the key-material fetch of the resolver. -/
  cryptoMethod : String
  /-- Server-held key material per disk: `(cryptoKey, publicKey)`. -/
  diskKeys : String → Except String (String × String)
  /-- Unlocking an encrypted private key blob with a passphrase. -/
  unlockKey : String → String → Except String String
  /-- Result of the `files.download` (signed URL) call. -/
  downloadResp : Except String ApiResponse
  /-- HTTP GET of the content URL: status code and body bytes. -/
  httpGet : String → Except String (Nat × List Nat)
  /-- `GetKeyRings`: building key rings from public key, raw private key and
  passphrase; yields an abstract private key-ring handle. -/
  buildKeyRings : String → String → String → Except String Nat
  /-- `privateKeyRing.Decrypt` on the buffered ciphertext. -/
  decryptMsg : Nat → List Nat → Except String (List Nat)

/-- The body of the key-material fetch issued by the CryptoInfo resolver
(request params shape from spec §6). -/
def resolverBody (env : Env) (token disk : String) : RequestBody :=
  apiRequestBody token env.cryptoMethod (some [("disk", JVal.str disk)])

/-- Modelled from the spec: `GetCryptoInfo` is not under src/; §4.2 of the
spec describes it as fetch-plus-unlock — fail with a credential error when
the passphrase is empty, otherwise fetch `(EncryptedCryptoKey, PublicKey)`
for the disk via the API gateway, unlock the private key with the
passphrase, and populate `RawCryptoKey`; transport and unlock failures
propagate.  §6 gives the request params shape `\x7bdisk: diskId\x7d`. -/
def getCryptoInfoSpec (env : Env) (token disk password : String) :
    List Event × Except String CryptoInfo :=
  if password = "" then ([], .error "no password provided")
  else
    let body := resolverBody env token disk
    match env.diskKeys disk with
    | .error e => ([Event.apiCall body], .error e)
    | .ok (encKey, pubKey) =>
      match env.unlockKey encKey password with
      | .error e => ([Event.apiCall body], .error e)
      | .ok raw => ([Event.apiCall body], .ok ⟨encKey, pubKey, password, raw⟩)

/-- The guard of the credential block in `DownloadFile` (README line 188):
`encrypted && (cryptoInfo == nil || !cryptoInfo.IsCryptoReady())`. -/
def needsCryptoResolution (encrypted : Bool) (cryptoInfo : Option CryptoInfo) : Bool :=
  encrypted && (match cryptoInfo with
    | none => true
    | some c => !c.IsCryptoReady)

/-- The credential block of `DownloadFile` (README lines 187-204): decides,
in source order, between failing with a credential error and invoking the
resolver for the file's owning disk; returns the (possibly replaced)
CryptoInfo on success. -/
def authCheck (env : Env) (token disk : String) (encrypted : Bool)
    (cryptoInfo : Option CryptoInfo) : List Event × Except String (Option CryptoInfo) :=
  if needsCryptoResolution encrypted cryptoInfo then
    match cryptoInfo with
    | none => ([], .error "file is encrypted and no any crypto cryptoInfo provided")
    | some c =>
      if c.Password = "" && c.RawCryptoKey = "" then
        ([], .error "file is encrypted and no password or keys provided")
      else if c.RawCryptoKey = "" then
        match getCryptoInfoSpec env token disk c.Password with
        | (tr, .error e) => (tr, .error ("failed to get crypto info: " ++ e))
        | (tr, .ok c2) => (tr, .ok (some c2))
      else
        ([], .error "file is encrypted and no any data provided")
  else ([], .ok cryptoInfo)

/-- The delivery step of `DownloadFile` (README lines 231-257): for an
encrypted file, buffer the ciphertext, build the key rings, decrypt, clear
the private params and write the plaintext; otherwise write the fetched
bytes as-is. -/
def deliver (env : Env) (name : String) (encrypted : Bool)
    (cryptoInfo : Option CryptoInfo) (body : List Nat) : List Event × Outcome :=
  if encrypted then
    match cryptoInfo with
    | none => ([], .panics "nil pointer dereference")
    | some c =>
      match env.buildKeyRings c.PublicKey c.RawCryptoKey c.Password with
      | .error e => ([], .err e)
      | .ok kr =>
        match env.decryptMsg kr body with
        | .error e => ([], .err e)
        | .ok plain => ([Event.clearPrivateParams, Event.write plain], .ok name plain.length)
  else ([Event.write body], .ok name body.length)

/-- The URL-resolve and fetch steps of `DownloadFile` (README lines
206-229) followed by delivery: request the signed URL, fetch it over plain
HTTP, reject non-200 statuses, then hand the bytes to `deliver`. -/
def fetchAndDeliver (env : Env) (token fileId name : String) (encrypted : Bool)
    (cryptoInfo : Option CryptoInfo) : List Event × Outcome :=
  let tr : List Event := [Event.apiCall (downloadBody token fileId)]
  match env.downloadResp with
  | .error e => (tr, .err e)
  | .ok dl =>
    if dl.error.code ≠ 0 then (tr, .err dl.error.message)
    else
      match (lookupKey dl.result "url").bind asStr with
      | none => (tr, .err "failed to get file url")
      | some url =>
        match env.httpGet url with
        | .error e => (tr ++ [Event.httpGet url], .err e)
        | .ok (status, bytes) =>
          if status ≠ 200 then
            (tr ++ [Event.httpGet url], .err ("bad response status code: " ++ toString status))
          else
            let step := deliver env name encrypted cryptoInfo bytes
            (tr ++ [Event.httpGet url] ++ step.1, step.2)

/-- The metadata extraction done with unchecked type assertions on
`list[0]` (README lines 180-185): `name`, `encrypted`, `mime`, `disk`.
Returns `none` exactly when Go would panic. -/
def fileMetaOf (v : JVal) : Option (String × Bool × String × String) :=
  match asObj v with
  | none => none
  | some fields =>
    match (lookupKey fields "name").bind asStr,
          (lookupKey fields "encrypted").bind asBool,
          (lookupKey fields "mime").bind asStr,
          (lookupKey fields "disk").bind asStr with
    | some name, some enc, some mime, some disk => some (name, enc, mime, disk)
    | _, _, _, _ => none

/-- pkg.DownloadFile (README lines 147-265), as a function from the run
environment, token, file id and optional CryptoInfo to the event trace and
the outcome. -/
def downloadFile (env : Env) (token fileId : String) (cryptoInfo : Option CryptoInfo) :
    List Event × Outcome :=
  if fileId = "" then ([], .err "file id is required")
  else
    let tr1 : List Event := [Event.apiCall (getByIdBody token fileId)]
    match env.getByIdResp with
    | .error e => (tr1, .err e)
    | .ok filesList =>
      if filesList.error.code ≠ 0 then (tr1, .err filesList.error.message)
      else
        let count : Int := ((lookupKey filesList.result "count").bind asNum).getD 0
        if count = 0 then (tr1, .err "file not found or you have not access to it")
        else
          match lookupKey filesList.result "list" with
          | none => (tr1, .err "bad file get response")
          | some rawList =>
            match asList rawList with
            | none => (tr1, .err "files list parameter is not a list itself")
            | some list =>
              match list with
              | [] => (tr1, .err "file not found or you have not access to it")
              | elem :: _ =>
                match fileMetaOf elem with
                | none => (tr1, .panics "interface conversion failed")
                | some (name, encrypted, _mime, disk) =>
                  match authCheck env token disk encrypted cryptoInfo with
                  | (tr2, .error e) => (tr1 ++ tr2, .err e)
                  | (tr2, .ok ci2) =>
                    let step := fetchAndDeliver env token fileId name encrypted ci2
                    (tr1 ++ tr2 ++ step.1, step.2)

/-- All bytes written to the destination writer during a run. -/
def writtenBytes : List Event → List Nat
  | [] => []
  | Event.write bs :: tr => bs ++ writtenBytes tr
  | _ :: tr => writtenBytes tr

/-- The outbound JSON-RPC bodies of a run, in order. -/
def apiBodies : List Event → List RequestBody
  | [] => []
  | Event.apiCall b :: tr => b :: apiBodies tr
  | _ :: tr => apiBodies tr

/-- A well-shaped `files.getById` result carrying one file record. -/
def fileResult (name : String) (encrypted : Bool) (mime disk : String) :
    List (String × JVal) :=
  [("count", JVal.num 1),
   ("list", JVal.list [JVal.obj
      [("name", JVal.str name), ("encrypted", JVal.bool encrypted),
       ("mime", JVal.str mime), ("disk", JVal.str disk)]])]

/-- A JSON-RPC response with error code zero and the given result map. -/
def okResp (result : List (String × JVal)) : ApiResponse :=
  ⟨⟨0, ""⟩, result⟩

/-- A well-shaped `files.download` result carrying the signed URL. -/
def urlResult (url : String) : List (String × JVal) :=
  [("url", JVal.str url)]

example :
    (downloadFile
      { getByIdResp := .ok (okResp (fileResult "a.txt" false "text/plain" "d1")),
        cryptoMethod := "disks.keys",
        diskKeys := fun _ => .error "unused",
        unlockKey := fun _ _ => .error "unused",
        downloadResp := .ok (okResp (urlResult "u")),
        httpGet := fun _ => .ok (200, [1, 2, 3]),
        buildKeyRings := fun _ _ _ => .ok 0,
        decryptMsg := fun _ _ => .error "unused" }
      "tok" "fid" none).2 = Outcome.ok "a.txt" 3 := by rfl

theorem apiBodies_append (l1 l2 : List Event) :
    apiBodies (l1 ++ l2) = apiBodies l1 ++ apiBodies l2 := by
  induction l1 with
  | nil => rfl
  | cons e tr ih => cases e <;> simp [apiBodies, ih]

theorem writtenBytes_append (l1 l2 : List Event) :
    writtenBytes (l1 ++ l2) = writtenBytes l1 ++ writtenBytes l2 := by
  induction l1 with
  | nil => rfl
  | cons e tr ih => cases e <;> simp [writtenBytes, ih]

/-- C1: for a file whose metadata marks it encrypted, if `Decrypt` fails on
the buffered ciphertext then `DownloadFile` returns that error and zero
bytes have been written to the destination writer. -/
theorem C1_decrypt_failure_writes_nothing
    (env : Env) (token fileId name mime disk url e : String)
    (cipher : List Nat) (c : CryptoInfo) (kr : Nat)
    (hfid : fileId ≠ "")
    (hmeta : env.getByIdResp = .ok (okResp (fileResult name true mime disk)))
    (hready : c.RawCryptoKey ≠ "")
    (hdl : env.downloadResp = .ok (okResp (urlResult url)))
    (hget : env.httpGet url = .ok (200, cipher))
    (hkr : env.buildKeyRings c.PublicKey c.RawCryptoKey c.Password = .ok kr)
    (hdec : env.decryptMsg kr cipher = .error e) :
    (downloadFile env token fileId (some c)).2 = .err e ∧
    writtenBytes (downloadFile env token fileId (some c)).1 = [] := by
  simp [downloadFile, hmeta, hfid, okResp, fileResult, lookupKey, asNum, asList,
    fileMetaOf, asObj, asStr, asBool, authCheck, needsCryptoResolution,
    CryptoInfo.IsCryptoReady, hready, fetchAndDeliver, hdl, urlResult, hget,
    deliver, hkr, hdec, writtenBytes, writtenBytes_append]

/-- An already-unlocked CryptoInfo used by concrete witness runs. -/
def readyInfo : CryptoInfo :=
  ⟨"enc-blob", "pub-key", "pw", "raw-key"⟩

/-- Concrete environment: an encrypted file whose key rings build fine but
whose ciphertext fails to decrypt. -/
def envDecFail : Env where
  getByIdResp := .ok (okResp (fileResult "a.txt" true "text/plain" "d1"))
  cryptoMethod := "disks.keys"
  diskKeys := fun _ => .error "unused"
  unlockKey := fun _ _ => .error "unused"
  downloadResp := .ok (okResp (urlResult "u"))
  httpGet := fun _ => .ok (200, [1, 2, 3])
  buildKeyRings := fun _ _ _ => .ok 0
  decryptMsg := fun _ _ => .error "decrypt failed"

theorem C1_decrypt_failure_writes_nothing_witness :
    (downloadFile envDecFail "tok" "fid" (some readyInfo)).2 = .err "decrypt failed" ∧
    writtenBytes (downloadFile envDecFail "tok" "fid" (some readyInfo)).1 = [] :=
  C1_decrypt_failure_writes_nothing envDecFail "tok" "fid" "a.txt" "text/plain"
    "d1" "u" "decrypt failed" [1, 2, 3] readyInfo 0
    (by decide) rfl (by decide) rfl rfl rfl rfl

/-- C5: for an encrypted file and no CryptoInfo supplied at all,
`DownloadFile` fails with the credential error and the only outbound API
call of the run is the initial `files.getById` metadata lookup; in
particular no `files.download` request is issued. -/
theorem C5_nil_crypto_blocks_before_url_request
    (env : Env) (token fileId name mime disk : String)
    (hfid : fileId ≠ "")
    (hmeta : env.getByIdResp = .ok (okResp (fileResult name true mime disk))) :
    (downloadFile env token fileId none).2 =
      .err "file is encrypted and no any crypto cryptoInfo provided" ∧
    apiBodies (downloadFile env token fileId none).1 = [getByIdBody token fileId] := by
  simp [downloadFile, hmeta, hfid, okResp, fileResult, lookupKey, asNum, asList,
    fileMetaOf, asObj, asStr, asBool, authCheck, needsCryptoResolution, apiBodies,
    apiBodies_append]

theorem C5_nil_crypto_blocks_before_url_request_witness :
    (downloadFile envDecFail "tok" "fid" none).2 =
      .err "file is encrypted and no any crypto cryptoInfo provided" ∧
    apiBodies (downloadFile envDecFail "tok" "fid" none).1 = [getByIdBody "tok" "fid"] :=
  C5_nil_crypto_blocks_before_url_request envDecFail "tok" "fid" "a.txt"
    "text/plain" "d1" (by decide) rfl

/-- C8: if the metadata response reports `count = 0`, or reports a
well-typed but empty list, `DownloadFile` fails with the not-found error
and the metadata lookup remains the only outbound API call of the run. -/
theorem C8_count_zero_or_empty_list_stops
    (env : Env) (token fileId : String) (resp : ApiResponse)
    (cryptoInfo : Option CryptoInfo)
    (hfid : fileId ≠ "")
    (hok : env.getByIdResp = .ok resp)
    (hcode : resp.error.code = 0) :
    (((lookupKey resp.result "count").bind asNum).getD 0 = 0 →
      (downloadFile env token fileId cryptoInfo).2 =
        .err "file not found or you have not access to it" ∧
      apiBodies (downloadFile env token fileId cryptoInfo).1 =
        [getByIdBody token fileId]) ∧
    (lookupKey resp.result "list" = some (JVal.list []) →
      (downloadFile env token fileId cryptoInfo).2 =
        .err "file not found or you have not access to it" ∧
      apiBodies (downloadFile env token fileId cryptoInfo).1 =
        [getByIdBody token fileId]) := by
  constructor
  · intro hcount
    simp [downloadFile, hok, hcode, hfid, hcount, apiBodies]
  · intro hlist
    by_cases hc : ((lookupKey resp.result "count").bind asNum).getD 0 = 0
    · simp [downloadFile, hok, hcode, hfid, hc, apiBodies]
    · simp [downloadFile, hok, hcode, hfid, hc, hlist, asList, apiBodies]

/-- A metadata response reporting zero matching records. -/
def envCountZero : Env where
  getByIdResp := .ok (okResp [("count", JVal.num 0)])
  cryptoMethod := "disks.keys"
  diskKeys := fun _ => .error "unused"
  unlockKey := fun _ _ => .error "unused"
  downloadResp := .ok (okResp (urlResult "u"))
  httpGet := fun _ => .ok (200, [1])
  buildKeyRings := fun _ _ _ => .ok 0
  decryptMsg := fun _ _ => .ok []

theorem C8_count_zero_or_empty_list_stops_witness :
    (downloadFile envCountZero "tok" "fid" none).2 =
      .err "file not found or you have not access to it" ∧
    apiBodies (downloadFile envCountZero "tok" "fid" none).1 =
      [getByIdBody "tok" "fid"] :=
  (C8_count_zero_or_empty_list_stops envCountZero "tok" "fid"
      (okResp [("count", JVal.num 0)]) none (by decide) rfl rfl).1
    (by simp [okResp, lookupKey, asNum])

/-- C9: for a file whose metadata marks it unencrypted, `DownloadFile`
writes to the destination writer exactly the bytes fetched from the
content URL, and the returned byte count equals the number of bytes
written. -/
theorem C9_plain_passthrough
    (env : Env) (token fileId name mime disk url : String) (body : List Nat)
    (cryptoInfo : Option CryptoInfo)
    (hfid : fileId ≠ "")
    (hmeta : env.getByIdResp = .ok (okResp (fileResult name false mime disk)))
    (hdl : env.downloadResp = .ok (okResp (urlResult url)))
    (hget : env.httpGet url = .ok (200, body)) :
    (downloadFile env token fileId cryptoInfo).2 = .ok name body.length ∧
    writtenBytes (downloadFile env token fileId cryptoInfo).1 = body := by
  simp [downloadFile, hmeta, hfid, okResp, fileResult, lookupKey, asNum, asList,
    fileMetaOf, asObj, asStr, asBool, authCheck, needsCryptoResolution,
    fetchAndDeliver, hdl, urlResult, hget, deliver, writtenBytes,
    writtenBytes_append]

/-- A plain (unencrypted) 1024-byte file named report.pdf. -/
def envPlain : Env where
  getByIdResp := .ok (okResp (fileResult "report.pdf" false "application/pdf" "d1"))
  cryptoMethod := "disks.keys"
  diskKeys := fun _ => .error "unused"
  unlockKey := fun _ _ => .error "unused"
  downloadResp := .ok (okResp (urlResult "u"))
  httpGet := fun _ => .ok (200, List.replicate 1024 0)
  buildKeyRings := fun _ _ _ => .ok 0
  decryptMsg := fun _ _ => .ok []

set_option maxRecDepth 8192 in
theorem C9_plain_passthrough_witness :
    (downloadFile envPlain "tok" "fid" none).2 = .ok "report.pdf" 1024 ∧
    writtenBytes (downloadFile envPlain "tok" "fid" none).1 = List.replicate 1024 0 :=
  C9_plain_passthrough envPlain "tok" "fid" "report.pdf" "application/pdf" "d1"
    "u" (List.replicate 1024 0) none (by decide) rfl rfl rfl

/-- Concrete environment: an encrypted file whose decryption succeeds,
yielding plaintext `[9, 9]`. -/
def envEncOk : Env where
  getByIdResp := .ok (okResp (fileResult "a.txt" true "text/plain" "d1"))
  cryptoMethod := "disks.keys"
  diskKeys := fun _ => .error "unused"
  unlockKey := fun _ _ => .error "unused"
  downloadResp := .ok (okResp (urlResult "u"))
  httpGet := fun _ => .ok (200, [1, 2, 3])
  buildKeyRings := fun _ _ _ => .ok 0
  decryptMsg := fun _ _ => .ok [9, 9]

/-- C3: evaluation at the failing input.  When `Decrypt` fails, the call
returns the error with no `clearPrivateParams` event in its trace — the
unlocked key-ring is never cleared on that exit path — whereas the same
run with a successful decryption does clear the private params. -/
theorem C3_decrypt_error_path_never_clears :
    (downloadFile envDecFail "tok" "fid" (some readyInfo)).2 = .err "decrypt failed" ∧
    Event.clearPrivateParams ∉ (downloadFile envDecFail "tok" "fid" (some readyInfo)).1 ∧
    Event.clearPrivateParams ∈ (downloadFile envEncOk "tok" "fid" (some readyInfo)).1 := by
  refine ⟨rfl, ?_, ?_⟩ <;>
    simp [downloadFile, envDecFail, envEncOk, okResp, fileResult, lookupKey, asNum,
      asList, fileMetaOf, asObj, asStr, asBool, authCheck, needsCryptoResolution,
      CryptoInfo.IsCryptoReady, readyInfo, fetchAndDeliver, urlResult, deliver,
      getByIdBody, downloadBody, apiRequestBody, apiRequestParams, hasKey]

/-- Metadata response whose file record is a bare string, not an object. -/
def envBadElem : Env where
  getByIdResp := .ok (okResp
    [("count", JVal.num 1), ("list", JVal.list [JVal.str "oops"])])
  cryptoMethod := "disks.keys"
  diskKeys := fun _ => .error "unused"
  unlockKey := fun _ _ => .error "unused"
  downloadResp := .ok (okResp (urlResult "u"))
  httpGet := fun _ => .ok (200, [1])
  buildKeyRings := fun _ _ _ => .ok 0
  decryptMsg := fun _ _ => .ok []

/-- C7 counterexample: a metadata response whose list element is not an
object makes `DownloadFile` panic (Go's unchecked type assertion on
`list[0]`), not return an error — the lookup step is not total. -/
theorem C7_counterexample_malformed_element_panics :
    (downloadFile envBadElem "tok" "fid" none).2 = .panics "interface conversion failed" ∧
    ∀ m, (downloadFile envBadElem "tok" "fid" none).2 ≠ .err m := by
  refine ⟨rfl, ?_⟩
  intro m
  simp [downloadFile, envBadElem, okResp, lookupKey, asNum, asList, fileMetaOf,
    asObj]

/-- C7 amended: with a zero error code and non-zero count, a missing
`list` key or a non-list `list` value makes the lookup step return an
error, but a list whose first element fails the object/field assertions
makes `DownloadFile` panic instead of returning an error. -/
theorem C7_lookup_shape_handling
    (env : Env) (token fileId : String) (resp : ApiResponse)
    (cryptoInfo : Option CryptoInfo)
    (hfid : fileId ≠ "")
    (hok : env.getByIdResp = .ok resp)
    (hcode : resp.error.code = 0)
    (hcount : ((lookupKey resp.result "count").bind asNum).getD 0 ≠ 0) :
    (lookupKey resp.result "list" = none →
      (downloadFile env token fileId cryptoInfo).2 = .err "bad file get response") ∧
    (∀ v, lookupKey resp.result "list" = some v → asList v = none →
      (downloadFile env token fileId cryptoInfo).2 =
        .err "files list parameter is not a list itself") ∧
    (∀ elem rest, lookupKey resp.result "list" = some (JVal.list (elem :: rest)) →
      fileMetaOf elem = none →
      (downloadFile env token fileId cryptoInfo).2 =
        .panics "interface conversion failed") := by
  refine ⟨?_, ?_, ?_⟩
  · intro hlist
    simp [downloadFile, hok, hcode, hfid, hcount, hlist]
  · intro v hlist hv
    simp [downloadFile, hok, hcode, hfid, hcount, hlist, hv]
  · intro elem rest hlist helem
    simp [downloadFile, hok, hcode, hfid, hcount, hlist, helem, asList]

/-- Metadata response with a count but no `list` key at all. -/
def envNoList : Env where
  getByIdResp := .ok (okResp [("count", JVal.num 1)])
  cryptoMethod := "disks.keys"
  diskKeys := fun _ => .error "unused"
  unlockKey := fun _ _ => .error "unused"
  downloadResp := .ok (okResp (urlResult "u"))
  httpGet := fun _ => .ok (200, [1])
  buildKeyRings := fun _ _ _ => .ok 0
  decryptMsg := fun _ _ => .ok []

theorem C7_lookup_shape_handling_witness :
    (downloadFile envNoList "tok" "fid" none).2 = .err "bad file get response" :=
  (C7_lookup_shape_handling envNoList "tok" "fid" (okResp [("count", JVal.num 1)])
      none (by decide) rfl rfl (by simp [okResp, lookupKey, asNum])).1
    (by simp [okResp, lookupKey])

/-- Under a well-shaped one-record metadata response, `DownloadFile`
reduces to the credential check followed by fetch-and-deliver. -/
theorem downloadFile_meta_eq
    (env : Env) (token fileId name mime disk : String) (enc : Bool)
    (cryptoInfo : Option CryptoInfo)
    (hfid : fileId ≠ "")
    (hmeta : env.getByIdResp = .ok (okResp (fileResult name enc mime disk))) :
    downloadFile env token fileId cryptoInfo =
      (match authCheck env token disk enc cryptoInfo with
       | (tr2, .error e) => ([Event.apiCall (getByIdBody token fileId)] ++ tr2, .err e)
       | (tr2, .ok ci2) =>
         ([Event.apiCall (getByIdBody token fileId)] ++ tr2 ++
            (fetchAndDeliver env token fileId name enc ci2).1,
          (fetchAndDeliver env token fileId name enc ci2).2)) := by
  simp only [downloadFile, hmeta, hfid]
  simp [okResp, fileResult, lookupKey, asNum, asList, fileMetaOf, asObj, asStr,
    asBool]

/-- When the passphrase is non-empty the resolver issues exactly its one
key-material request. -/
theorem getCryptoInfoSpec_events
    (env : Env) (token disk pw : String) (hpw : pw ≠ "") :
    (getCryptoInfoSpec env token disk pw).1 =
      [Event.apiCall (resolverBody env token disk)] := by
  rcases h : env.diskKeys disk with e | kp
  · simp [getCryptoInfoSpec, hpw, h]
  · rcases kp with ⟨k, p⟩
    rcases h2 : env.unlockKey k pw with e2 | raw <;>
      simp [getCryptoInfoSpec, hpw, h, h2]

/-- C4: the credential decision of `DownloadFile` for an encrypted file
with a not-ready CryptoInfo, in source order: a nil CryptoInfo fails with
the credential error; both Password and RawCryptoKey empty fails; Password
present with RawCryptoKey absent invokes the resolver against the file's
owning disk (its request appears in the trace) and propagates resolver
failure.  Readiness being exactly non-emptiness of RawCryptoKey, these
three cases exhaust the not-ready combinations. -/
theorem C4_credential_decision_order
    (env : Env) (token fileId name mime disk : String)
    (cryptoInfo : Option CryptoInfo)
    (hfid : fileId ≠ "")
    (hmeta : env.getByIdResp = .ok (okResp (fileResult name true mime disk)))
    (hnotready : ∀ c, cryptoInfo = some c → c.RawCryptoKey = "") :
    (cryptoInfo = none →
      (downloadFile env token fileId cryptoInfo).2 =
        .err "file is encrypted and no any crypto cryptoInfo provided") ∧
    (∀ c, cryptoInfo = some c → c.Password = "" →
      (downloadFile env token fileId cryptoInfo).2 =
        .err "file is encrypted and no password or keys provided") ∧
    (∀ c, cryptoInfo = some c → c.Password ≠ "" →
      Event.apiCall (resolverBody env token disk) ∈
        (downloadFile env token fileId cryptoInfo).1 ∧
      ∀ e, (getCryptoInfoSpec env token disk c.Password).2 = .error e →
        (downloadFile env token fileId cryptoInfo).2 =
          .err ("failed to get crypto info: " ++ e)) := by
  refine ⟨?_, ?_, ?_⟩
  · rintro rfl
    rw [downloadFile_meta_eq env token fileId name mime disk true none hfid hmeta]
    simp [authCheck, needsCryptoResolution]
  · rintro c rfl hpw
    rw [downloadFile_meta_eq env token fileId name mime disk true (some c) hfid hmeta]
    have hraw := hnotready c rfl
    simp [authCheck, needsCryptoResolution, CryptoInfo.IsCryptoReady, hraw, hpw]
  · rintro c rfl hpw
    have hraw := hnotready c rfl
    rw [downloadFile_meta_eq env token fileId name mime disk true (some c) hfid hmeta]
    have hA : authCheck env token disk true (some c) =
        (match getCryptoInfoSpec env token disk c.Password with
         | (tr, .error e) => (tr, .error ("failed to get crypto info: " ++ e))
         | (tr, .ok c2) => (tr, .ok (some c2))) := by
      simp [authCheck, needsCryptoResolution, CryptoInfo.IsCryptoReady, hraw, hpw]
    have hev := getCryptoInfoSpec_events env token disk c.Password hpw
    rcases hG : getCryptoInfoSpec env token disk c.Password with ⟨tr, r⟩
    rw [hG] at hA hev
    simp only at hev
    subst hev
    cases r with
    | error e0 =>
      simp only [hA]
      constructor
      · simp
      · intro e he
        simp at he
        simp [he]
    | ok c2 =>
      simp only [hA]
      constructor
      · simp
      · intro e he
        simp at he

/-- A CryptoInfo holding only a passphrase. -/
def pwOnlyInfo : CryptoInfo :=
  ⟨"", "", "pw", ""⟩

/-- Encrypted file whose key-material fetch fails at the gateway. -/
def envResolveFail : Env where
  getByIdResp := .ok (okResp (fileResult "a.txt" true "text/plain" "d1"))
  cryptoMethod := "disks.keys"
  diskKeys := fun _ => .error "server unreachable"
  unlockKey := fun _ _ => .error "unused"
  downloadResp := .ok (okResp (urlResult "u"))
  httpGet := fun _ => .ok (200, [1])
  buildKeyRings := fun _ _ _ => .ok 0
  decryptMsg := fun _ _ => .ok []

theorem C4_credential_decision_order_witness :
    Event.apiCall (resolverBody envResolveFail "tok" "d1") ∈
      (downloadFile envResolveFail "tok" "fid" (some pwOnlyInfo)).1 ∧
    (downloadFile envResolveFail "tok" "fid" (some pwOnlyInfo)).2 =
      .err "failed to get crypto info: server unreachable" := by
  have h := (C4_credential_decision_order envResolveFail "tok" "fid" "a.txt"
      "text/plain" "d1" (some pwOnlyInfo) (by decide) rfl
      (fun c hc => by cases hc; rfl)).2.2 pwOnlyInfo rfl (by decide)
  exact ⟨h.1, h.2 "server unreachable" rfl⟩

/-- Encrypted file; the server returns key material but the passphrase
fails to unlock it during resolution. -/
def envWrongPw : Env where
  getByIdResp := .ok (okResp (fileResult "a.txt" true "text/plain" "d1"))
  cryptoMethod := "disks.keys"
  diskKeys := fun _ => .ok ("enc-blob", "pub-key")
  unlockKey := fun _ _ => .error "failed to decrypt private key"
  downloadResp := .ok (okResp (urlResult "u"))
  httpGet := fun _ => .ok (200, [1, 2, 3])
  buildKeyRings := fun _ _ _ => .error "failed to decrypt private key"
  decryptMsg := fun _ _ => .ok []

/-- C6 counterexample: a wrong passphrase in a not-yet-ready CryptoInfo
fails during credential resolution, and the run performs no ciphertext
fetch at all — contradicting the claim that the pipeline performs the
ciphertext fetch in every wrong-passphrase run. -/
theorem C6_counterexample_no_fetch_on_resolver_failure :
    (downloadFile envWrongPw "tok" "fid" (some pwOnlyInfo)).2 =
      .err "failed to get crypto info: failed to decrypt private key" ∧
    ∀ u, Event.httpGet u ∉ (downloadFile envWrongPw "tok" "fid" (some pwOnlyInfo)).1 := by
  constructor
  · rfl
  · intro u
    simp [downloadFile, envWrongPw, okResp, fileResult, lookupKey, asNum, asList,
      fileMetaOf, asObj, asStr, asBool, authCheck, needsCryptoResolution,
      CryptoInfo.IsCryptoReady, pwOnlyInfo, getCryptoInfoSpec, resolverBody]

/-- C6 amended: a wrong passphrase always yields an error with no
plaintext written; the ciphertext fetch occurs when the CryptoInfo already
carries raw key material (key-ring construction fails after the fetch),
while a CryptoInfo that must be resolved from the passphrase fails before
the signed-URL request, with no fetch at all. -/
theorem C6_wrong_passphrase_no_plaintext
    (env : Env) (token fileId name mime disk url e : String)
    (cipher : List Nat) (c : CryptoInfo)
    (hfid : fileId ≠ "")
    (hmeta : env.getByIdResp = .ok (okResp (fileResult name true mime disk))) :
    (c.RawCryptoKey ≠ "" →
      env.buildKeyRings c.PublicKey c.RawCryptoKey c.Password = .error e →
      env.downloadResp = .ok (okResp (urlResult url)) →
      env.httpGet url = .ok (200, cipher) →
      (downloadFile env token fileId (some c)).2 = .err e ∧
      Event.httpGet url ∈ (downloadFile env token fileId (some c)).1 ∧
      writtenBytes (downloadFile env token fileId (some c)).1 = []) ∧
    (c.RawCryptoKey = "" → c.Password ≠ "" →
      (getCryptoInfoSpec env token disk c.Password).2 = .error e →
      (downloadFile env token fileId (some c)).2 =
        .err ("failed to get crypto info: " ++ e) ∧
      (∀ u, Event.httpGet u ∉ (downloadFile env token fileId (some c)).1) ∧
      writtenBytes (downloadFile env token fileId (some c)).1 = []) := by
  constructor
  · intro hready hkr hdl hget
    simp [downloadFile, hmeta, hfid, okResp, fileResult, lookupKey, asNum, asList,
      fileMetaOf, asObj, asStr, asBool, authCheck, needsCryptoResolution,
      CryptoInfo.IsCryptoReady, hready, fetchAndDeliver, hdl, urlResult, hget,
      deliver, hkr, writtenBytes, writtenBytes_append]
  · intro hraw hpw hG
    rw [downloadFile_meta_eq env token fileId name mime disk true (some c) hfid hmeta]
    have hA : authCheck env token disk true (some c) =
        (match getCryptoInfoSpec env token disk c.Password with
         | (tr, .error e2) => (tr, .error ("failed to get crypto info: " ++ e2))
         | (tr, .ok c2) => (tr, .ok (some c2))) := by
      simp [authCheck, needsCryptoResolution, CryptoInfo.IsCryptoReady, hraw, hpw]
    have hev := getCryptoInfoSpec_events env token disk c.Password hpw
    rcases hGp : getCryptoInfoSpec env token disk c.Password with ⟨tr, r⟩
    rw [hGp] at hA hev hG
    simp only at hev hG
    subst hev
    subst hG
    simp only [hA]
    refine ⟨by simp, ?_, ?_⟩
    · intro u
      simp [getByIdBody, resolverBody, apiRequestBody]
    · simp [writtenBytes, writtenBytes_append]

/-- Encrypted file with a ready CryptoInfo whose passphrase fails at
key-ring construction time. -/
def envRingFail : Env where
  getByIdResp := .ok (okResp (fileResult "a.txt" true "text/plain" "d1"))
  cryptoMethod := "disks.keys"
  diskKeys := fun _ => .ok ("enc-blob", "pub-key")
  unlockKey := fun _ _ => .error "failed to decrypt private key"
  downloadResp := .ok (okResp (urlResult "u"))
  httpGet := fun _ => .ok (200, [1, 2, 3])
  buildKeyRings := fun _ _ _ => .error "gopenpgp: unable to unlock key"
  decryptMsg := fun _ _ => .ok []

theorem C6_wrong_passphrase_no_plaintext_witness :
    (downloadFile envRingFail "tok" "fid" (some readyInfo)).2 =
      .err "gopenpgp: unable to unlock key" ∧
    Event.httpGet "u" ∈ (downloadFile envRingFail "tok" "fid" (some readyInfo)).1 ∧
    writtenBytes (downloadFile envRingFail "tok" "fid" (some readyInfo)).1 = [] :=
  (C6_wrong_passphrase_no_plaintext envRingFail "tok" "fid" "a.txt" "text/plain"
      "d1" "u" "gopenpgp: unable to unlock key" [1, 2, 3] readyInfo
      (by decide) rfl).1 (by decide) rfl rfl rfl

theorem deliver_no_api_calls
    (env : Env) (name : String) (enc : Bool) (ci : Option CryptoInfo)
    (body : List Nat) :
    apiBodies (deliver env name enc ci body).1 = [] := by
  cases enc
  · simp [deliver, apiBodies]
  · rcases ci with _ | c
    · simp [deliver, apiBodies]
    · rcases h : env.buildKeyRings c.PublicKey c.RawCryptoKey c.Password with e | kr
      · simp [deliver, h, apiBodies]
      · rcases h2 : env.decryptMsg kr body with e2 | plain <;>
          simp [deliver, h, h2, apiBodies]

theorem fetchAndDeliver_api_calls
    (env : Env) (token fileId name : String) (enc : Bool) (ci : Option CryptoInfo) :
    apiBodies (fetchAndDeliver env token fileId name enc ci).1 =
      [downloadBody token fileId] := by
  rcases h : env.downloadResp with e | dl
  · simp [fetchAndDeliver, h, apiBodies]
  · by_cases hc : dl.error.code = 0
    · rcases hu : (lookupKey dl.result "url").bind asStr with _ | url
      · simp [fetchAndDeliver, h, hc, hu, apiBodies]
      · rcases hg : env.httpGet url with e2 | sb
        · simp [fetchAndDeliver, h, hc, hu, hg, apiBodies, apiBodies_append]
        · rcases sb with ⟨status, bytes⟩
          by_cases hs : status = 200
          · simp [fetchAndDeliver, h, hc, hu, hg, hs, apiBodies,
              apiBodies_append, deliver_no_api_calls]
          · simp [fetchAndDeliver, h, hc, hu, hg, hs, apiBodies, apiBodies_append]
    · simp [fetchAndDeliver, h, hc, apiBodies]

theorem authCheck_api_calls
    (env : Env) (token disk : String) (enc : Bool) (ci : Option CryptoInfo) :
    apiBodies (authCheck env token disk enc ci).1 = [] ∨
    apiBodies (authCheck env token disk enc ci).1 = [resolverBody env token disk] := by
  by_cases hn : needsCryptoResolution enc ci = true
  · rcases ci with _ | c
    · simp [authCheck, hn, apiBodies]
    · by_cases hp : c.Password = ""
      · by_cases hr : c.RawCryptoKey = "" <;>
          simp [authCheck, hn, hp, hr, apiBodies]
      · by_cases hr : c.RawCryptoKey = ""
        · right
          have hev := getCryptoInfoSpec_events env token disk c.Password hp
          rcases hGp : getCryptoInfoSpec env token disk c.Password with ⟨tr, r⟩
          rw [hGp] at hev
          simp only at hev
          subst hev
          cases r <;> simp [authCheck, hn, hp, hr, hGp, apiBodies]
        · simp [authCheck, hn, hp, hr, apiBodies]
  · simp [authCheck, hn, apiBodies]

theorem getByIdBody_params (token fileId : String) :
    (getByIdBody token fileId).params =
      [("file", JVal.str fileId), ("token", JVal.str token)] := by
  simp [getByIdBody, apiRequestBody, apiRequestParams, hasKey, lookupKey]

theorem downloadBody_params (token fileId : String) :
    (downloadBody token fileId).params =
      [("file", JVal.str fileId), ("token", JVal.str token)] := by
  simp [downloadBody, apiRequestBody, apiRequestParams, hasKey, lookupKey]

theorem resolverBody_params (env : Env) (token disk : String) :
    (resolverBody env token disk).params =
      [("disk", JVal.str disk), ("token", JVal.str token)] := by
  simp [resolverBody, apiRequestBody, apiRequestParams, hasKey, lookupKey]

/-- C2: every outbound JSON-RPC body of a `DownloadFile` run is one of the
two direct bodies — `files.getById` and `files.download`, whose params are
exactly the file id and the token — or the resolver's key-material body
for the file's owning disk; consequently the CryptoInfo passphrase and
decrypted private key never occur as a value in any outbound body (unless
those secret strings coincide with the file id, token or disk id). -/
theorem C2_outbound_bodies_safe
    (env : Env) (token fileId name mime disk : String) (enc : Bool)
    (cryptoInfo : Option CryptoInfo)
    (hmeta : env.getByIdResp = .ok (okResp (fileResult name enc mime disk))) :
    (∀ b ∈ apiBodies (downloadFile env token fileId cryptoInfo).1,
      b = getByIdBody token fileId ∨ b = downloadBody token fileId ∨
      b = resolverBody env token disk) ∧
    (∀ c, cryptoInfo = some c →
      c.Password ∉ ([fileId, token, disk] : List String) →
      c.RawCryptoKey ∉ ([fileId, token, disk] : List String) →
      ∀ b ∈ apiBodies (downloadFile env token fileId cryptoInfo).1,
        ∀ kv ∈ b.params,
          kv.2 ≠ JVal.str c.Password ∧ kv.2 ≠ JVal.str c.RawCryptoKey) := by
  have hshape : ∀ b ∈ apiBodies (downloadFile env token fileId cryptoInfo).1,
      b = getByIdBody token fileId ∨ b = downloadBody token fileId ∨
      b = resolverBody env token disk := by
    by_cases hfid : fileId = ""
    · simp [downloadFile, hfid, apiBodies]
    · rw [downloadFile_meta_eq env token fileId name mime disk enc cryptoInfo hfid hmeta]
      have h2 := authCheck_api_calls env token disk enc cryptoInfo
      rcases hA : authCheck env token disk enc cryptoInfo with ⟨tr2, r⟩
      rw [hA] at h2
      simp only at h2
      cases r with
      | error e =>
        intro b hb
        rcases h2 with h2 | h2 <;>
          simp [apiBodies, apiBodies_append, h2] at hb <;> tauto
      | ok ci2 =>
        intro b hb
        have h3 := fetchAndDeliver_api_calls env token fileId name enc ci2
        rcases h2 with h2 | h2 <;>
          simp [apiBodies, apiBodies_append, h2, h3] at hb <;> tauto
  refine ⟨hshape, ?_⟩
  rintro c rfl hp hr b hb kv hkv
  simp only [List.mem_cons, List.not_mem_nil, or_false, not_or] at hp hr
  obtain ⟨hp1, hp2, hp3⟩ := hp
  obtain ⟨hr1, hr2, hr3⟩ := hr
  rcases hshape b hb with h | h | h <;> subst h
  · rw [getByIdBody_params] at hkv
    simp only [List.mem_cons, List.not_mem_nil, or_false] at hkv
    rcases hkv with rfl | rfl
    · exact ⟨fun h => hp1 (JVal.str.inj h).symm, fun h => hr1 (JVal.str.inj h).symm⟩
    · exact ⟨fun h => hp2 (JVal.str.inj h).symm, fun h => hr2 (JVal.str.inj h).symm⟩
  · rw [downloadBody_params] at hkv
    simp only [List.mem_cons, List.not_mem_nil, or_false] at hkv
    rcases hkv with rfl | rfl
    · exact ⟨fun h => hp1 (JVal.str.inj h).symm, fun h => hr1 (JVal.str.inj h).symm⟩
    · exact ⟨fun h => hp2 (JVal.str.inj h).symm, fun h => hr2 (JVal.str.inj h).symm⟩
  · rw [resolverBody_params] at hkv
    simp only [List.mem_cons, List.not_mem_nil, or_false] at hkv
    rcases hkv with rfl | rfl
    · exact ⟨fun h => hp3 (JVal.str.inj h).symm, fun h => hr3 (JVal.str.inj h).symm⟩
    · exact ⟨fun h => hp2 (JVal.str.inj h).symm, fun h => hr2 (JVal.str.inj h).symm⟩

theorem C2_outbound_bodies_safe_witness :
    JVal.str "fid" ≠ JVal.str "pw" ∧ JVal.str "fid" ≠ JVal.str "" :=
  (C2_outbound_bodies_safe envResolveFail "tok" "fid" "a.txt" "text/plain" "d1"
      true (some pwOnlyInfo) rfl).2 pwOnlyInfo rfl (by decide) (by decide)
    (getByIdBody "tok" "fid")
    (by simp [downloadFile, envResolveFail, okResp, fileResult, lookupKey, asNum,
      asList, fileMetaOf, asObj, asStr, asBool, authCheck, needsCryptoResolution,
      CryptoInfo.IsCryptoReady, pwOnlyInfo, getCryptoInfoSpec, apiBodies])
    ("file", JVal.str "fid")
    (by simp [getByIdBody_params])

/-- C10: the param handling of `ApiRequest`: an existing `"token"` key in
the caller's map wins — the map is transmitted unchanged and the token
argument is ignored; otherwise the token argument is inserted under
`"token"`; a nil map is treated exactly as an empty one. -/
theorem C10_token_param_handling
    (token token2 : String) (m : List (String × JVal)) :
    (hasKey m "token" = true →
      apiRequestParams token (some m) = m ∧
      apiRequestParams token (some m) = apiRequestParams token2 (some m)) ∧
    (hasKey m "token" = false →
      apiRequestParams token (some m) = m ++ [("token", JVal.str token)]) ∧
    apiRequestParams token none = apiRequestParams token (some []) := by
  refine ⟨fun h => ?_, fun h => ?_, rfl⟩ <;> simp [apiRequestParams, h]

theorem C10_token_param_handling_witness :
    apiRequestParams "t" (some [("token", JVal.str "x")]) = [("token", JVal.str "x")] ∧
    apiRequestParams "t" (some [("token", JVal.str "x")]) =
      apiRequestParams "u" (some [("token", JVal.str "x")]) :=
  (C10_token_param_handling "t" "u" [("token", JVal.str "x")]).1 rfl
